import Mathlib

/-
Verification of the request-signing client in weplanx/functions
(src/client/client.go), as a shallow embedding in Lean 4.

External library primitives (crypto/md5, crypto/hmac+sha256,
encoding/base64, sonic JSON marshalling, the HTTP transport and the
clock) are not code of this repository; they are taken as abstract
function parameters.  Everything the repository itself computes —
header canonicalisation, hex encoding, query escaping and encoding,
the signing string, the Authorization format, the sent request — is
modelled concretely from the Go source.

Bytes are modelled as `Nat` (values 0..255); strings are Lean
`String`s, with `strBytes` giving their UTF-8 bytes as Go does when
converting `string` to `[]byte`.
-/

namespace Fn

/-- UTF-8 encoding of a single character, as a list of byte values. -/
def utf8Bytes (c : Char) : List Nat :=
  let n := c.toNat
  if n < 128 then [n]
  else if n < 2048 then [192 + n / 64, 128 + n % 64]
  else if n < 65536 then [224 + n / 4096, 128 + n / 64 % 64, 128 + n % 64]
  else [240 + n / 262144, 128 + n / 4096 % 64, 128 + n / 64 % 64, 128 + n % 64]

/-- The UTF-8 bytes of a string (Go's `[]byte(s)`). -/
def strBytes (s : String) : List Nat :=
  s.data.foldr (fun c acc => utf8Bytes c ++ acc) []

/-- Byte-wise lexicographic comparison, as Go compares strings. -/
def bytesLe : List Nat → List Nat → Bool
  | [], _ => true
  | _ :: _, [] => false
  | a :: as, b :: bs => if a < b then true else if b < a then false else bytesLe as bs

/-- Go's `s <= t` on strings: byte-wise lexicographic order. -/
def strLe (a b : String) : Bool := bytesLe (strBytes a) (strBytes b)

/-- Insert a string into a list kept in `strLe` order. -/
def insertStr (s : String) : List String → List String
  | [] => [s]
  | t :: ts => if strLe s t then s :: t :: ts else t :: insertStr s ts

/-- Sorting a list of strings in ascending byte order (Go `sort.Strings`). -/
def sortStrings (l : List String) : List String := l.foldr insertStr []

/-- Lower-case hexadecimal digit (Go `encoding/hex`). -/
def lowerHexDigit (n : Nat) : Char :=
  if n < 10 then Char.ofNat (48 + n) else Char.ofNat (87 + n)

/-- Upper-case hexadecimal digit (Go `net/url` percent-escapes). -/
def upperHexDigit (n : Nat) : Char :=
  if n < 10 then Char.ofNat (48 + n) else Char.ofNat (55 + n)

/-- Go `hex.EncodeToString`: two lower-case hex digits per byte. -/
def hexEncode (bs : List Nat) : String :=
  bs.foldl (fun acc b => acc ++ String.mk [lowerHexDigit (b % 256 / 16), lowerHexDigit (b % 16)]) ""

/-- Bytes Go `url.QueryEscape` leaves unescaped: ALPHA / DIGIT / "-" / "." / "_" / "~". -/
def isUnreservedQueryByte (b : Nat) : Bool :=
  (48 ≤ b && b ≤ 57) || (65 ≤ b && b ≤ 90) || (97 ≤ b && b ≤ 122) ||
  b == 45 || b == 46 || b == 95 || b == 126

/-- Escaping of one byte in a query component (Go `url.QueryEscape`): space
becomes `+`, unreserved bytes stay, everything else becomes `%XX`. -/
def queryEscapeByte (b : Nat) : String :=
  if isUnreservedQueryByte b then String.singleton (Char.ofNat (b % 256))
  else if b == 32 then "+"
  else "%" ++ String.mk [upperHexDigit (b % 256 / 16), upperHexDigit (b % 16)]

/-- Go `url.QueryEscape` over a whole string. -/
def queryEscape (s : String) : String :=
  (strBytes s).foldl (fun acc b => acc ++ queryEscapeByte b) ""

/-- ASCII lower-casing of one character ('A'..'Z' shifted by 32). -/
def lowerChar (c : Char) : Char :=
  if 65 ≤ c.toNat && c.toNat ≤ 90 then Char.ofNat (c.toNat + 32) else c

/-- Go `strings.ToLower` (on ASCII input, which is all HTTP header names use). -/
def toLowerStr (s : String) : String := String.mk (s.data.map lowerChar)

/-- The `Client` of src/client/client.go with its embedded `Option`
(`Url`, `Key`, `Secret`); the transport handle is external. -/
structure Client where
  url : String
  key : String
  secret : String

/-- `url.Values`: a mapping from key to list of values.  Modelled as an
association list with distinct keys (a Go map). -/
def Values := List (String × List String)

/-- The `OpenAPI` request builder of src/client/client.go.  `header` is the
Go `map[string]string` as an association list with distinct keys; `query`
is `none` for a nil `url.Values` and `some q` otherwise; `body` is `none`
for a nil `[]byte` and `some bs` otherwise. -/
structure OpenAPI where
  client : Client
  method : String
  path : String
  header : List (String × String)
  query : Option (List (String × List String))
  body : Option (List Nat)

/-- Go map indexing `h[k]` for `map[string]string`: the stored value, or
the zero value `""` when the key is absent. -/
def lookupD (h : List (String × String)) (k : String) : String :=
  match h.lookup k with
  | some v => v
  | none => ""

/-- Go map indexing for `url.Values`: the stored list, or nil. -/
def lookupVals (q : List (String × List String)) (k : String) : List String :=
  match q.lookup k with
  | some vs => vs
  | none => []

/-- The first loop of `SetAuthorization`: collect every header name other
than the literal `"Accept"`, lower-cased, in iteration order. -/
def collectHeaders (x : OpenAPI) : List String :=
  x.header.foldl (fun acc kv => if kv.1 = "Accept" then acc else acc ++ [toLowerStr kv.1]) []

/-- The `headers` list of `SetAuthorization` after `sort.Strings`. -/
def signedHeaders (x : OpenAPI) : List String :=
  sortStrings (collectHeaders x)

/-- The `headersKVString` builder of `SetAuthorization`: one line
`"<name>: <value>\n"` per sorted name, the value looked up from
`x.Header` under the lower-cased name (Go zero value `""` if absent). -/
def headersKVString (x : OpenAPI) : String :=
  (signedHeaders x).foldl (fun buf v => buf ++ v ++ ": " ++ lookupD x.header v ++ "\n") ""

/-- `contextMd5` of `SetAuthorization`: `""` when `x.Body` is nil, the
lower-case hex MD5 digest of the body bytes otherwise.  `md5` is the
abstract digest function of crypto/md5. -/
def contentMd5 (md5 : List Nat → List Nat) (x : OpenAPI) : String :=
  match x.body with
  | none => ""
  | some bs => hexEncode (md5 bs)

/-- Go `url.Values.Encode`: keys sorted, each key escaped once, each of its
values appended as `key=value`, `&`-separated (the separator is written
whenever the buffer is nonempty). -/
def valuesEncode (q : List (String × List String)) : String :=
  let keys := sortStrings (q.map Prod.fst)
  keys.foldl (fun buf k =>
    (lookupVals q k).foldl (fun buf v =>
      (if buf.length > 0 then buf ++ "&" else buf) ++ queryEscape k ++ "=" ++ queryEscape v) buf) ""

/-- `pathAndParameters` of `SetAuthorization`: the path, with
`"?" ++ Encode(query)` appended exactly when `x.Query` is non-nil. -/
def pathAndParameters (x : OpenAPI) : String :=
  match x.query with
  | none => x.path
  | some q => x.path ++ "?" ++ valuesEncode q

/-- `signToString` of `SetAuthorization`, with `accept` hard-coded to
`"application/json"`. -/
def signToString (md5 : List Nat → List Nat) (x : OpenAPI) : String :=
  headersKVString x ++ x.method ++ "\n" ++ "application/json" ++ "\n\n" ++
    contentMd5 md5 x ++ "\n" ++ pathAndParameters x

/-- `SetAuthorization` of src/client/client.go.  `md5` is the abstract MD5
digest, `hmacSha256 key msg` the abstract HMAC-SHA256 digest bytes and
`base64Encode` the abstract standard base64 encoder. -/
def setAuthorization (md5 : List Nat → List Nat)
    (hmacSha256 : String → String → List Nat) (base64Encode : List Nat → String)
    (x : OpenAPI) : String :=
  "hmac id=\"" ++ x.client.key ++ "\", algorithm=\"hmac-sha256\", headers=\"" ++
    String.intercalate " " (signedHeaders x) ++ "\", signature=\"" ++
    base64Encode (hmacSha256 x.client.secret (signToString md5 x)) ++ "\""

/-- The outbound request `Send` hands to the transport: method, full
request URI, the builder's headers, the body set on the transport
request, and the `Authorization` header when it was set. -/
structure SentRequest where
  method : String
  uri : String
  headers : List (String × String)
  body : Option (List Nat)
  authorization : Option String

/-- `Send` of src/client/client.go up to the transport call: builds the
URI `Url + Path + "?" + Query.Encode()` (Encode of a nil `url.Values` is
`""`), copies the headers, never sets a body on the transport request
(there is no `req.SetBody` call, whatever `x.Body` holds), and sets
`Authorization` iff both Key and Secret are non-empty. -/
def send (md5 : List Nat → List Nat)
    (hmacSha256 : String → String → List Nat) (base64Encode : List Nat → String)
    (x : OpenAPI) : SentRequest :=
  { method := x.method
    uri := x.client.url ++ x.path ++ "?" ++
      (match x.query with | none => "" | some q => valuesEncode q)
    headers := x.header
    body := none
    authorization :=
      if x.client.key ≠ "" ∧ x.client.secret ≠ "" then
        some (setAuthorization md5 hmacSha256 base64Encode x)
      else none }

/-- `R` of src/client/client.go: a fresh request with the default headers;
`nowDate` is the formatted UTC clock value (external). -/
def R (c : Client) (nowDate : String) (method path : String) : OpenAPI :=
  { client := c
    method := method
    path := path
    header := [("accept", "application/json"), ("source", "apigw test"), ("x-date", nowDate)]
    query := none
    body := none }

/-- The request `Ping` sends: `R("GET", "/")` with no query and no body. -/
def pingRequest (c : Client) (nowDate : String) : OpenAPI :=
  R c nowDate "GET" "/"

/-- `SetData` of src/client/client.go: `x.Body, _ = sonic.Marshal(v)`.
`marshal` is the abstract sonic serializer, returning `none` (a nil byte
slice) on failure; the error is discarded. -/
def SetData {α : Type} (marshal : α → Option (List Nat)) (x : OpenAPI) (v : α) : OpenAPI :=
  { x with body := marshal v }

/-- `SetQuery` of src/client/client.go: replaces the whole query. -/
def SetQuery (x : OpenAPI) (v : List (String × List String)) : OpenAPI :=
  { x with query := some v }

/-! Spec-side definitions, written from the specification's words, to be
compared with the code-side definitions above. -/

/-- Spec-side header-name selection: all header names except the
case-sensitive literal `"Accept"`, lower-cased, sorted in ASCII
lexicographic order. -/
def specHeaderNames (x : OpenAPI) : List String :=
  sortStrings (((x.header.map Prod.fst).filter (fun k => !(k == "Accept"))).map toLowerStr)

/-- Spec-side canonical header block: for each sorted name, in order, the
line `<name>: <value>\n`, the value looked up under the lower-cased key. -/
def specCanonicalBlock (x : OpenAPI) : String :=
  String.join ((specHeaderNames x).map (fun n => n ++ ": " ++ lookupD x.header n ++ "\n"))

/-- Spec-side signing string:
`<canonical-header-block><METHOD>\n<accept-value>\n\n<contentMd5>\n<pathAndParameters>`
with the accept value the literal `"application/json"`. -/
def specSigningString (md5 : List Nat → List Nat) (x : OpenAPI) : String :=
  specCanonicalBlock x ++ x.method ++ "\n" ++ "application/json" ++ "\n\n" ++
    contentMd5 md5 x ++ "\n" ++ pathAndParameters x

/-- Spec-side Authorization value:
`hmac id="<key>", algorithm="hmac-sha256", headers="<space-joined names>",
signature="<base64 of HMAC-SHA256 keyed by the secret over the signing string>"`. -/
def specAuthorization (md5 : List Nat → List Nat)
    (hmacSha256 : String → String → List Nat) (base64Encode : List Nat → String)
    (x : OpenAPI) : String :=
  "hmac id=\"" ++ x.client.key ++ "\", algorithm=\"hmac-sha256\", headers=\"" ++
    String.intercalate " " (specHeaderNames x) ++ "\", signature=\"" ++
    base64Encode (hmacSha256 x.client.secret (specSigningString md5 x)) ++ "\""

/-- Spec-side query pieces: for each key in sorted order, each of its
values as an escaped `key=value` piece. -/
def specQueryPieces (q : List (String × List String)) : List String :=
  (sortStrings (q.map Prod.fst)).flatMap
    (fun k => (lookupVals q k).map (fun v => queryEscape k ++ "=" ++ queryEscape v))

/-- Joining pieces with a single `&` between consecutive pieces. -/
def joinAmp : List String → String
  | [] => ""
  | p :: ps => p ++ String.join (ps.map (fun s => "&" ++ s))

/-- Spec-side encoded query string: the `&`-joined pieces. -/
def specValuesEncode (q : List (String × List String)) : String :=
  joinAmp (specQueryPieces q)

/-! Helper lemmas about strings and folds. -/

theorem strJoin_cons (s : String) (l : List String) : String.join (s :: l) = s ++ String.join l := by
  rw [String.join_eq (s :: l), String.join_eq l]
  cases s with
  | mk d => rfl

theorem foldl_append_join {α : Type} (fn : α → String) : ∀ (ns : List α) (buf : String),
    ns.foldl (fun b n => b ++ fn n) buf = buf ++ String.join (ns.map fn) := by
  intro ns
  induction ns with
  | nil => intro buf; simp [String.join]
  | cons n t ih =>
    intro buf
    simp only [List.foldl, List.map, ih, strJoin_cons, String.append_assoc]

theorem length_pos_of_ne (s : String) (h : s ≠ "") : 0 < s.length := by
  cases s with
  | mk d =>
    cases d with
    | nil => exact absurd rfl h
    | cons c cs => simp [String.length]

theorem ne_empty_of_length_pos (s : String) (h : 0 < s.length) : s ≠ "" := by
  intro he
  rw [he] at h
  simp [String.length] at h

theorem collectHeaders_foldl : ∀ (l : List (String × String)) (acc : List String),
    l.foldl (fun acc kv => if kv.1 = "Accept" then acc else acc ++ [toLowerStr kv.1]) acc
    = acc ++ ((l.map Prod.fst).filter (fun k => !(k == "Accept"))).map toLowerStr := by
  intro l
  induction l with
  | nil => intro acc; simp
  | cons kv t ih =>
    intro acc
    by_cases h : kv.1 = "Accept"
    · simp [List.foldl, h, ih]
    · simp [List.foldl, h, ih]

theorem collectHeaders_eq (x : OpenAPI) :
    collectHeaders x = ((x.header.map Prod.fst).filter (fun k => !(k == "Accept"))).map toLowerStr := by
  have h := collectHeaders_foldl x.header []
  simpa [collectHeaders] using h

theorem signedHeaders_eq (x : OpenAPI) : signedHeaders x = specHeaderNames x := by
  rw [signedHeaders, specHeaderNames, collectHeaders_eq]

theorem foldl_line_join (h : List (String × String)) : ∀ (ns : List String) (buf : String),
    ns.foldl (fun buf v => buf ++ v ++ ": " ++ lookupD h v ++ "\n") buf
    = buf ++ String.join (ns.map (fun v => v ++ ": " ++ lookupD h v ++ "\n")) := by
  intro ns
  induction ns with
  | nil => intro buf; simp [String.join]
  | cons n t ih =>
    intro buf
    rw [List.foldl_cons, ih, List.map_cons, strJoin_cons]
    simp [String.append_assoc]

theorem headersKVString_eq (x : OpenAPI) : headersKVString x = specCanonicalBlock x := by
  rw [headersKVString, specCanonicalBlock, foldl_line_join, String.empty_append, signedHeaders_eq]

theorem signToString_eq (md5 : List Nat → List Nat) (x : OpenAPI) :
    signToString md5 x = specSigningString md5 x := by
  rw [signToString, specSigningString, headersKVString_eq]

theorem ampFoldl_ne (ps : List String) : ∀ (buf : String), buf ≠ "" →
    ps.foldl (fun buf p => (if buf.length > 0 then buf ++ "&" else buf) ++ p) buf
    = buf ++ String.join (ps.map (fun s => "&" ++ s)) := by
  induction ps with
  | nil => intro buf _; simp [String.join]
  | cons p t ih =>
    intro buf h
    have hl : 0 < buf.length := length_pos_of_ne buf h
    rw [List.foldl_cons]
    have hstep : (if buf.length > 0 then buf ++ "&" else buf) ++ p = buf ++ "&" ++ p := by
      rw [if_pos hl]
    rw [hstep]
    have hone : ("&" : String).length = 1 := rfl
    have hne : buf ++ "&" ++ p ≠ "" := by
      apply ne_empty_of_length_pos
      rw [String.length_append, String.length_append, hone]
      omega
    rw [ih _ hne, List.map_cons, strJoin_cons]
    simp [String.append_assoc]

theorem ampFoldl (ps : List String) (hps : ∀ p ∈ ps, p ≠ "") :
    ps.foldl (fun buf p => (if buf.length > 0 then buf ++ "&" else buf) ++ p) "" = joinAmp ps := by
  cases ps with
  | nil => rfl
  | cons p t =>
    rw [List.foldl_cons]
    have h0 : (if ("" : String).length > 0 then "" ++ "&" else ("" : String)) ++ p = p := by
      have : ("" : String).length = 0 := rfl
      rw [this]
      simp [String.empty_append]
    rw [h0, ampFoldl_ne t p (hps p (by simp)), joinAmp]

theorem foldl_keys_pieces (q : List (String × List String)) : ∀ (keys : List String) (buf : String),
    keys.foldl (fun buf k => (lookupVals q k).foldl
        (fun buf v => (if buf.length > 0 then buf ++ "&" else buf) ++ queryEscape k ++ "=" ++ queryEscape v) buf) buf
    = (keys.flatMap (fun k => (lookupVals q k).map (fun v => queryEscape k ++ "=" ++ queryEscape v))).foldl
        (fun buf p => (if buf.length > 0 then buf ++ "&" else buf) ++ p) buf := by
  intro keys
  induction keys with
  | nil => intro buf; simp
  | cons k t ih =>
    intro buf
    rw [List.foldl_cons, List.flatMap_cons, List.foldl_append, ih, List.foldl_map]
    have hfun : (fun (b : String) (v : String) =>
          (if b.length > 0 then b ++ "&" else b) ++ queryEscape k ++ "=" ++ queryEscape v)
        = (fun (b : String) (v : String) =>
          (if b.length > 0 then b ++ "&" else b) ++ (queryEscape k ++ "=" ++ queryEscape v)) := by
      funext b v
      simp [String.append_assoc]
    rw [hfun]

theorem specQueryPieces_ne (q : List (String × List String)) : ∀ p ∈ specQueryPieces q, p ≠ "" := by
  intro p hp
  rw [specQueryPieces] at hp
  obtain ⟨k, _, hp2⟩ := List.mem_flatMap.mp hp
  obtain ⟨v, _, rfl⟩ := List.mem_map.mp hp2
  apply ne_empty_of_length_pos
  rw [String.length_append, String.length_append]
  have hone : ("=" : String).length = 1 := rfl
  rw [hone]
  omega

theorem valuesEncode_eq (q : List (String × List String)) : valuesEncode q = specValuesEncode q := by
  rw [valuesEncode, specValuesEncode]
  rw [foldl_keys_pieces]
  exact ampFoldl _ (specQueryPieces_ne q)

/-- Hex digits produced by the encoder are digits or a to f. -/
theorem lowerHexDigit_ok : ∀ n : Nat, n < 16 →
    ((lowerHexDigit n).isDigit = true ∨ (97 ≤ (lowerHexDigit n).toNat ∧ (lowerHexDigit n).toNat ≤ 102)) := by
  decide

/-! The claims. -/

/-- Claim C1: for every request descriptor and client identity,
`SetAuthorization` returns exactly the string
`hmac id="<key>", algorithm="hmac-sha256", headers="<space-joined
lower-cased sorted header names>", signature="<sig>"` where the signature
is the base64 encoding of HMAC-SHA256 keyed by the secret over the
signing string `<canonical-header-block><METHOD>\n` + `application/json`
+ `\n\n<contentMd5>\n<pathAndParameters>`, with the accept value
hard-coded to `application/json` and the method exactly as given. -/
theorem claim_C1 (md5 : List Nat → List Nat) (hmacSha256 : String → String → List Nat)
    (base64Encode : List Nat → String) (x : OpenAPI) :
    setAuthorization md5 hmacSha256 base64Encode x = specAuthorization md5 hmacSha256 base64Encode x := by
  rw [setAuthorization, specAuthorization, signedHeaders_eq, signToString_eq]

/-- Claim C2: the canonical header block is built by taking all header
names except the case-sensitive literal `Accept`, lower-casing them,
sorting in ASCII order, and appending one line `<name>: <value>\n` per
sorted name, the value looked up from the original mapping under the
lower-cased key (possibly the empty string). -/
theorem claim_C2 (x : OpenAPI) :
    signedHeaders x = specHeaderNames x ∧ headersKVString x = specCanonicalBlock x :=
  ⟨signedHeaders_eq x, headersKVString_eq x⟩

/-- Claim C3 (amended): with signing enabled, `Send` sets the
`Authorization` header computed from the same builder state it holds at
send time, and the transmitted request carries exactly the builder's
headers; the signed path-and-query equals the transmitted URI's
path-and-query portion whenever the query is non-nil, while for a nil
query the transmitted URI carries a trailing `?` that the signed
`pathAndParameters` omits; `Send` transmits no body, so the signed
state agrees with the transmitted request's (absent) body only when the
builder's body is nil: then the signing string recomputed with the
transmitted body is the one that was signed. -/
theorem claim_C3 (md5 : List Nat → List Nat) (hmacSha256 : String → String → List Nat)
    (base64Encode : List Nat → String) (x : OpenAPI)
    (hk : x.client.key ≠ "") (hs : x.client.secret ≠ "") :
    (send md5 hmacSha256 base64Encode x).authorization =
      some (setAuthorization md5 hmacSha256 base64Encode x) ∧
    (send md5 hmacSha256 base64Encode x).headers = x.header ∧
    (send md5 hmacSha256 base64Encode x).body = none ∧
    (∀ q, x.query = some q →
      (send md5 hmacSha256 base64Encode x).uri = x.client.url ++ pathAndParameters x) ∧
    (x.query = none →
      (send md5 hmacSha256 base64Encode x).uri = x.client.url ++ pathAndParameters x ++ "?") ∧
    (x.body = none → signToString md5 x =
      signToString md5 { x with body := (send md5 hmacSha256 base64Encode x).body }) := by
  refine ⟨?_, rfl, rfl, fun q hq => ?_, fun hq => ?_, fun hb => ?_⟩
  · rw [send]
    simp only [if_pos (And.intro hk hs)]
  · simp [send, pathAndParameters, hq, String.append_assoc]
  · simp [send, pathAndParameters, hq, String.append_assoc, String.append_empty]
  · have hsb : (send md5 hmacSha256 base64Encode x).body = none := rfl
    rw [hsb, ← hb]

/-- Claim C3, counterexample to the original statement.  Query part: for
the request `Ping` sends (nil query), the transmitted URI is the base
url followed by `/?`, while the signed `pathAndParameters` is `/`, even
though signing is enabled.  Body part: a request whose builder holds a
body is transmitted with no body, yet its signing string carries the
body's digest, so it differs from the signing string of the
transmitted, body-less state. -/
theorem claim_C3_counterexample :
    (send (fun _ => []) (fun _ _ => []) (fun _ => "")
        (pingRequest ⟨"http://h", "k", "s"⟩ "D")).uri = "http://h" ++ "/?" ∧
    pathAndParameters (pingRequest ⟨"http://h", "k", "s"⟩ "D") = "/" ∧
    ((send (fun _ => []) (fun _ _ => []) (fun _ => "")
        (pingRequest ⟨"http://h", "k", "s"⟩ "D")).authorization).isSome = true ∧
    ("/?" : String) ≠ "/" ∧
    ((send (fun _ => [0]) (fun _ _ => []) (fun _ => "")
        ⟨⟨"u", "k", "s"⟩, "POST", "/p", [], none, some [9]⟩).authorization).isSome = true ∧
    (send (fun _ => [0]) (fun _ _ => []) (fun _ => "")
        ⟨⟨"u", "k", "s"⟩, "POST", "/p", [], none, some [9]⟩).body = none ∧
    signToString (fun _ => [0]) ⟨⟨"u", "k", "s"⟩, "POST", "/p", [], none, some [9]⟩ ≠
      signToString (fun _ => [0]) ⟨⟨"u", "k", "s"⟩, "POST", "/p", [], none, none⟩ := by
  refine ⟨by decide, rfl, by decide, by decide, by decide, rfl, by decide⟩

/-- Witness for claim C3 at the `Ping` request with non-empty
credentials, discharging the nil-query and nil-body hypotheses. -/
theorem claim_C3_witness :
    (send (fun _ => []) (fun _ _ => []) (fun _ => "")
        (pingRequest ⟨"u", "k", "s"⟩ "D")).authorization =
      some (setAuthorization (fun _ => []) (fun _ _ => [])
        (fun _ => "") (pingRequest ⟨"u", "k", "s"⟩ "D")) ∧
    (send (fun _ => []) (fun _ _ => []) (fun _ => "")
        (pingRequest ⟨"u", "k", "s"⟩ "D")).uri =
      "u" ++ pathAndParameters (pingRequest ⟨"u", "k", "s"⟩ "D") ++ "?" ∧
    signToString (fun _ => []) (pingRequest ⟨"u", "k", "s"⟩ "D") =
      signToString (fun _ => []) { pingRequest ⟨"u", "k", "s"⟩ "D" with
        body := (send (fun _ => []) (fun _ _ => []) (fun _ => "")
          (pingRequest ⟨"u", "k", "s"⟩ "D")).body } := by
  have h := claim_C3 (fun _ => []) (fun _ _ => []) (fun _ => "")
    (pingRequest ⟨"u", "k", "s"⟩ "D") (by decide) (by decide)
  exact ⟨h.1, h.2.2.2.2.1 rfl, h.2.2.2.2.2 rfl⟩

/-- Claim C4 (amended): `pathAndParameters` is the path followed by `?`
and the sorted, escaped, `&`-joined query string whenever the query
mapping is present (non-nil) — even when it holds no parameters, which
yields the path followed by a bare `?` — and is the bare path exactly
when the query is nil; `(b, 2), (a, 1)` encodes as `a=1&b=2`. -/
theorem claim_C4 (x : OpenAPI) :
    (∀ q, x.query = some q → pathAndParameters x = x.path ++ "?" ++ specValuesEncode q) ∧
    (x.query = none → pathAndParameters x = x.path) ∧
    valuesEncode [("b", ["2"]), ("a", ["1"])] = "a=1&b=2" := by
  refine ⟨fun q hq => ?_, fun hq => by simp [pathAndParameters, hq], by decide⟩
  simp [pathAndParameters, hq, valuesEncode_eq, String.append_assoc]

/-- Claim C4, counterexample to the original statement: a request whose
query is present but holds no parameters signs `path?`, not the bare
path. -/
theorem claim_C4_counterexample :
    pathAndParameters ⟨⟨"u", "k", "s"⟩, "GET", "/p", [], some [], none⟩ = "/p?" ∧
    ("/p?" : String) ≠ "/p" := by
  exact ⟨rfl, by decide⟩

/-- Witness for claim C4 at a one-parameter query and at a nil query. -/
theorem claim_C4_witness :
    pathAndParameters ⟨⟨"", "", ""⟩, "GET", "/ip", [], some [("value", ["8.8.8.8"])], none⟩
      = "/ip" ++ "?" ++ specValuesEncode [("value", ["8.8.8.8"])] ∧
    pathAndParameters ⟨⟨"", "", ""⟩, "GET", "/", [], none, none⟩ = "/" :=
  ⟨(claim_C4 ⟨⟨"", "", ""⟩, "GET", "/ip", [], some [("value", ["8.8.8.8"])], none⟩).1
      [("value", ["8.8.8.8"])] rfl,
   (claim_C4 ⟨⟨"", "", ""⟩, "GET", "/", [], none, none⟩).2.1 rfl⟩

/-- Claim C5: `contentMd5` is the lower-case hexadecimal MD5 digest of
the exact body bytes when a body is present and the empty string when the
body is absent (nil); the hex encoding uses only digits and the
lower-case letters a–f. -/
theorem claim_C5 (md5 : List Nat → List Nat) (x : OpenAPI) :
    (x.body = none → contentMd5 md5 x = "") ∧
    (∀ bs, x.body = some bs → contentMd5 md5 x = hexEncode (md5 bs)) ∧
    (∀ bs, ∀ c ∈ (hexEncode bs).data,
      c.isDigit = true ∨ (97 ≤ c.toNat ∧ c.toNat ≤ 102)) := by
  refine ⟨fun h => by simp [contentMd5, h], fun bs h => by simp [contentMd5, h], ?_⟩
  intro bs c hc
  rw [hexEncode, foldl_append_join, String.empty_append] at hc
  rw [String.data_join] at hc
  obtain ⟨l, hl, hcl⟩ := List.mem_flatten.mp hc
  rw [List.map_map] at hl
  obtain ⟨b, _, rfl⟩ := List.mem_map.mp hl
  have h1 : b % 256 / 16 < 16 := by omega
  have h2 : b % 16 < 16 := Nat.mod_lt _ (by norm_num)
  simp only [Function.comp, List.mem_cons, List.mem_singleton, List.not_mem_nil, or_false] at hcl
  rcases hcl with rfl | rfl
  · exact lowerHexDigit_ok _ h1
  · exact lowerHexDigit_ok _ h2

/-- Witness for claim C5 at an absent body and at a present body. -/
theorem claim_C5_witness :
    contentMd5 (fun _ => [171, 16]) ⟨⟨"", "", ""⟩, "GET", "/", [], none, none⟩ = "" ∧
    contentMd5 (fun _ => [171, 16]) ⟨⟨"", "", ""⟩, "GET", "/", [], none, some [1]⟩ = "ab10" :=
  ⟨(claim_C5 (fun _ => [171, 16]) ⟨⟨"", "", ""⟩, "GET", "/", [], none, none⟩).1 rfl,
   ((claim_C5 (fun _ => [171, 16]) ⟨⟨"", "", ""⟩, "GET", "/", [], none, some [1]⟩).2.1 [1] rfl).trans
     (by decide)⟩

/-- Claim C6: `Send` sets the `Authorization` header (computed by the
signer from the current request state) iff both the key and the secret
are non-empty; otherwise no `Authorization` header is set, and in either
case the request is still built and handed to the transport with its
method, URI and headers. -/
theorem claim_C6 (md5 : List Nat → List Nat) (hmacSha256 : String → String → List Nat)
    (base64Encode : List Nat → String) (x : OpenAPI) :
    ((x.client.key ≠ "" ∧ x.client.secret ≠ "") →
      (send md5 hmacSha256 base64Encode x).authorization =
        some (setAuthorization md5 hmacSha256 base64Encode x)) ∧
    ((x.client.key = "" ∨ x.client.secret = "") →
      (send md5 hmacSha256 base64Encode x).authorization = none) ∧
    (send md5 hmacSha256 base64Encode x).method = x.method ∧
    (send md5 hmacSha256 base64Encode x).uri =
      x.client.url ++ x.path ++ "?" ++
        (match x.query with | none => "" | some q => valuesEncode q) ∧
    (send md5 hmacSha256 base64Encode x).headers = x.header := by
  refine ⟨fun h => ?_, fun h => ?_, rfl, rfl, rfl⟩
  · rw [send]
    simp only [if_pos h]
  · rw [send]
    rw [if_neg]
    intro hc
    rcases h with h | h
    · exact hc.1 h
    · exact hc.2 h

/-- Witness for claim C6: an empty key suppresses the header while the
request is still built; non-empty credentials set it. -/
theorem claim_C6_witness :
    (send (fun _ => []) (fun _ _ => []) (fun _ => "")
        ⟨⟨"u", "", "s"⟩, "GET", "/", [], none, none⟩).authorization = none ∧
    (send (fun _ => []) (fun _ _ => []) (fun _ => "")
        ⟨⟨"u", "", "s"⟩, "GET", "/", [], none, none⟩).method = "GET" ∧
    (send (fun _ => []) (fun _ _ => []) (fun _ => "")
        ⟨⟨"u", "k", "s"⟩, "GET", "/", [], none, none⟩).authorization =
      some (setAuthorization (fun _ => []) (fun _ _ => []) (fun _ => "")
        ⟨⟨"u", "k", "s"⟩, "GET", "/", [], none, none⟩) :=
  ⟨(claim_C6 (fun _ => []) (fun _ _ => []) (fun _ => "")
      ⟨⟨"u", "", "s"⟩, "GET", "/", [], none, none⟩).2.1 (Or.inl rfl),
   (claim_C6 (fun _ => []) (fun _ _ => []) (fun _ => "")
      ⟨⟨"u", "", "s"⟩, "GET", "/", [], none, none⟩).2.2.1,
   (claim_C6 (fun _ => []) (fun _ _ => []) (fun _ => "")
      ⟨⟨"u", "k", "s"⟩, "GET", "/", [], none, none⟩).1 ⟨by decide, by decide⟩⟩

/-- Claim C7: `SetData` stores the serialized bytes as the body, changes
nothing else, surfaces no error, and on serialization failure the request
behaves as having no body (its `contentMd5` is empty). -/
theorem claim_C7 {α : Type} (marshal : α → Option (List Nat)) (md5 : List Nat → List Nat)
    (x : OpenAPI) (v : α) :
    SetData marshal x v = { x with body := marshal v } ∧
    (marshal v = none → contentMd5 md5 (SetData marshal x v) = "") :=
  ⟨rfl, fun h => by simp [SetData, contentMd5, h]⟩

/-- Witness for claim C7 at a failing serializer. -/
theorem claim_C7_witness :
    SetData (fun _ : Nat => (none : Option (List Nat)))
        ⟨⟨"u", "k", "s"⟩, "POST", "/", [], none, some [9]⟩ 7 =
      ⟨⟨"u", "k", "s"⟩, "POST", "/", [], none, none⟩ ∧
    contentMd5 (fun _ => []) (SetData (fun _ : Nat => (none : Option (List Nat)))
        ⟨⟨"u", "k", "s"⟩, "POST", "/", [], none, some [9]⟩ 7) = "" :=
  ⟨(claim_C7 (fun _ : Nat => none) (fun _ => [])
      ⟨⟨"u", "k", "s"⟩, "POST", "/", [], none, some [9]⟩ 7).1,
   (claim_C7 (fun _ : Nat => none) (fun _ => [])
      ⟨⟨"u", "k", "s"⟩, "POST", "/", [], none, some [9]⟩ 7).2 rfl⟩

/-- Claim C8: the signature computation is deterministic — it depends
only on the key, secret, method, path, headers, query and body (in
particular not on the base url) — and total: every input, including an
empty secret, produces a (nonempty) Authorization value. -/
theorem claim_C8 (md5 : List Nat → List Nat) (hmacSha256 : String → String → List Nat)
    (base64Encode : List Nat → String) (x y : OpenAPI)
    (hkey : x.client.key = y.client.key) (hsec : x.client.secret = y.client.secret)
    (hm : x.method = y.method) (hp : x.path = y.path)
    (hh : x.header = y.header) (hq : x.query = y.query) (hb : x.body = y.body) :
    setAuthorization md5 hmacSha256 base64Encode x = setAuthorization md5 hmacSha256 base64Encode y ∧
    0 < (setAuthorization md5 hmacSha256 base64Encode x).length := by
  constructor
  · obtain ⟨⟨xu, xk, xs⟩, xm, xp, xh, xq, xb⟩ := x
    obtain ⟨⟨yu, yk, ys⟩, ym, yp, yh, yq, yb⟩ := y
    simp only at hkey hsec hm hp hh hq hb
    subst hkey hsec hm hp hh hq hb
    rfl
  · rw [setAuthorization]
    have h9 : ("hmac id=\"" : String).length = 9 := rfl
    simp only [String.length_append, h9]
    omega

/-- Witness for claim C8: two requests identical except for the base url,
both with an empty secret, sign identically. -/
theorem claim_C8_witness :
    setAuthorization (fun _ => []) (fun _ _ => []) (fun _ => "")
      ⟨⟨"u1", "k", ""⟩, "GET", "/", [("host", "h")], none, none⟩ =
    setAuthorization (fun _ => []) (fun _ _ => []) (fun _ => "")
      ⟨⟨"u2", "k", ""⟩, "GET", "/", [("host", "h")], none, none⟩ :=
  (claim_C8 (fun _ => []) (fun _ _ => []) (fun _ => "")
    ⟨⟨"u1", "k", ""⟩, "GET", "/", [("host", "h")], none, none⟩
    ⟨⟨"u2", "k", ""⟩, "GET", "/", [("host", "h")], none, none⟩
    rfl rfl rfl rfl rfl rfl rfl).1

/-- Claim C9: when serialization fails, `SetData` overwrites the body
with the failed (nil) result: a body set earlier is discarded. -/
theorem claim_C9 {α : Type} (marshal : α → Option (List Nat)) (x : OpenAPI) (v : α)
    (b : List Nat) (hb : x.body = some b) (hm : marshal v = none) :
    (SetData marshal x v).body = none ∧ (SetData marshal x v).body ≠ x.body := by
  constructor
  · simp [SetData, hm]
  · simp [SetData, hm, hb]

/-- Witness for claim C9 at a request that already holds a body. -/
theorem claim_C9_witness :
    (SetData (fun _ : Nat => (none : Option (List Nat)))
        ⟨⟨"u", "k", "s"⟩, "POST", "/", [], none, some [1]⟩ 0).body = none ∧
    (SetData (fun _ : Nat => (none : Option (List Nat)))
        ⟨⟨"u", "k", "s"⟩, "POST", "/", [], none, some [1]⟩ 0).body ≠ some [1] :=
  claim_C9 (fun _ : Nat => none)
    ⟨⟨"u", "k", "s"⟩, "POST", "/", [], none, some [1]⟩ 0 [1] rfl rfl

/-- Claim C10: in every value `SetAuthorization` returns, the
`headers="..."` field is the space-join of exactly the list whose lines,
in the same order, form the canonical block inside the signed message —
the advertised list and the signed block come from one list. -/
theorem claim_C10 (md5 : List Nat → List Nat) (hmacSha256 : String → String → List Nat)
    (base64Encode : List Nat → String) (x : OpenAPI) :
    setAuthorization md5 hmacSha256 base64Encode x =
      "hmac id=\"" ++ x.client.key ++ "\", algorithm=\"hmac-sha256\", headers=\"" ++
        String.intercalate " " (signedHeaders x) ++ "\", signature=\"" ++
        base64Encode (hmacSha256 x.client.secret
          (String.join ((signedHeaders x).map (fun n => n ++ ": " ++ lookupD x.header n ++ "\n")) ++
            x.method ++ "\n" ++ "application/json" ++ "\n\n" ++ contentMd5 md5 x ++ "\n" ++
            pathAndParameters x)) ++ "\"" := by
  rw [setAuthorization, signToString, headersKVString, foldl_line_join, String.empty_append]

end Fn
